import Mathlib

/-!
Verification development for the NBB bridge-data structuring pipeline:
a shallow embedding of the CPT spreadsheet parser (`src/utils.py`,
`src/models.py`), the bulk-insert chunking (`src/openground.py`) and the
batch load orchestrator (`etl/main.py`), with theorems settling the
spec's claims about them.
-/

namespace NBB

/-! ## Bulk insert chunking (`openground.insert_in_bulk`) -/

/-- A single OpenGround data field, `{"Header": h, "Value": v}`. -/
structure OGField where
  header : String
  value : String
deriving DecidableEq

/-- One OpenGround record: the list of data fields of one row. -/
abbrev OGRecord := List OGField

/-- `MAX_ALLOWED_BULK = 1000` as set in `insert_in_bulk` (the function's
doc string recommends 500, but the code assigns 1000). -/
def MAX_ALLOWED_BULK : ℕ := 1000

/-- The per-call record lists that `insert_in_bulk` submits, in call order.
Mirrors the source: fewer than `MAX_ALLOWED_BULK` records go out in a single
call; otherwise `math.ceil(n / MAX_ALLOWED_BULK)` packets are sliced as
`records[start:end]` with `end = min(i * MAX_ALLOWED_BULK, n)`. -/
def insert_in_bulk_packets {α : Type} (records : List α) : List (List α) :=
  if records.length < MAX_ALLOWED_BULK then [records]
  else
    let iterations := (records.length + (MAX_ALLOWED_BULK - 1)) / MAX_ALLOWED_BULK
    (List.range iterations).map
      (fun i => (records.drop (i * MAX_ALLOWED_BULK)).take MAX_ALLOWED_BULK)

theorem packets_join_aux {α : Type} :
    ∀ (n : ℕ) (l : List α), l.length ≤ n →
      ((List.range ((l.length + 999) / 1000)).map
        (fun i => (l.drop (i * 1000)).take 1000)).flatten = l := by
  intro n
  induction n with
  | zero =>
    intro l hl
    have : l = [] := List.eq_nil_of_length_eq_zero (Nat.le_zero.mp hl)
    subst this
    simp
  | succ n ih =>
    intro l hl
    by_cases h0 : l.length = 0
    · have : l = [] := List.eq_nil_of_length_eq_zero h0
      subst this
      simp
    · have hm : (l.length + 999) / 1000 = ((l.drop 1000).length + 999) / 1000 + 1 := by
        have := l.length_drop 1000
        omega
      rw [hm, List.range_succ_eq_map, List.map_cons, List.flatten_cons, List.map_map]
      have hmap :
          ((List.range (((l.drop 1000).length + 999) / 1000)).map
              ((fun i => (l.drop (i * 1000)).take 1000) ∘ Nat.succ)) =
          ((List.range (((l.drop 1000).length + 999) / 1000)).map
              (fun i => ((l.drop 1000).drop (i * 1000)).take 1000)) := by
        refine List.map_congr_left ?_
        intro i _
        have h1 : Nat.succ i * 1000 = 1000 + i * 1000 := by omega
        simp only [Function.comp, h1, List.drop_drop]
      rw [hmap, ih (l.drop 1000) (by have := l.length_drop 1000; omega)]
      simp

/-- Every record reaches the remote store exactly once and in order: the
per-call slices concatenate back to the input list. -/
theorem insert_in_bulk_packets_join {α : Type} (records : List α) :
    (insert_in_bulk_packets records).flatten = records := by
  unfold insert_in_bulk_packets
  split
  · simp
  · exact packets_join_aux records.length records le_rfl

/-- C10: for every list of records, `insert_in_bulk` issues one or more bulk
calls whose per-call record lists, concatenated in call order, equal the
input list exactly, with each individual call carrying at most 1000
records. -/
theorem insert_in_bulk_calls_exact (records : List OGRecord) :
    (insert_in_bulk_packets records).flatten = records ∧
    (∀ c ∈ insert_in_bulk_packets records, c.length ≤ 1000) ∧
    insert_in_bulk_packets records ≠ [] := by
  refine ⟨insert_in_bulk_packets_join records, ?_, ?_⟩
  · intro c hc
    unfold insert_in_bulk_packets at hc
    split at hc
    · rename_i hlt
      rw [List.mem_singleton] at hc
      subst hc
      exact Nat.le_of_lt hlt
    · simp only [List.mem_map, List.mem_range] at hc
      obtain ⟨i, _, rfl⟩ := hc
      calc ((records.drop (i * MAX_ALLOWED_BULK)).take MAX_ALLOWED_BULK).length
          ≤ MAX_ALLOWED_BULK := by
            rw [List.length_take]
            exact min_le_left _ _
        _ = 1000 := rfl
  · unfold insert_in_bulk_packets
    split
    · simp
    · rename_i hge
      have h1 : 1 ≤ (records.length + (MAX_ALLOWED_BULK - 1)) / MAX_ALLOWED_BULK := by
        have : 1000 ≤ records.length := by
          simpa [MAX_ALLOWED_BULK] using Nat.le_of_not_lt hge
        show 1 ≤ (records.length + 999) / 1000
        omega
      intro hcontra
      rw [List.map_eq_nil_iff, List.range_eq_nil] at hcontra
      omega

/-- A sample record used in concrete evaluations. -/
def sampleRecord : OGRecord := [⟨"Depth", "0.5"⟩]

/-- C1 (failing-input evaluation): a measurement series of 501 rows is
submitted as a single bulk call carrying all 501 records, exceeding the
500-row batch size that the claim (and the function's own doc string)
require. -/
theorem bulk_batch_of_501_exceeds_500 :
    insert_in_bulk_packets (List.replicate 501 sampleRecord) =
      [List.replicate 501 sampleRecord] ∧
    500 < (List.replicate 501 sampleRecord).length := by
  constructor
  · unfold insert_in_bulk_packets
    rw [if_pos]
    rw [List.length_replicate]
    norm_num [MAX_ALLOWED_BULK]
  · rw [List.length_replicate]
    norm_num

/-! ## Remote store state and the load orchestrator (`etl/main.py`)

The remote platform (OpenGround) is an external collaborator; its state is
modelled at the interface boundary: location records, test-general records
(`StaticConePenetrationGeneral`, keyed by the test name, which is also the
name of the parent location), and measurement rows
(`StaticConePenetrationData`, keyed by the owning test name together with
the number of rows written by one bulk insert). Deleting a location
cascade-deletes its dependent test-general record and measurement rows,
the referential-integrity rule of the platform. -/

/-- Remote store state visible to the orchestrator. -/
structure RemoteState where
  locations : List String
  cpts : List String
  meas : List (String × ℕ)
deriving DecidableEq

/-- `utils.get_number_cpt_records`: number of measurement rows stored for a
given test name; 0 when none exist. -/
def measCount (s : RemoteState) (name : String) : ℕ :=
  ((s.meas.filter (fun p => decide (p.1 = name))).map (fun p => p.2)).sum

/-- `utils.insert_location_from_cpt_test`: creates a location record. -/
def insertLocation (s : RemoteState) (name : String) : RemoteState :=
  { s with locations := s.locations ++ [name] }

/-- `utils.insert_cpt_test`: creates a test-general record. -/
def insertCpt (s : RemoteState) (name : String) : RemoteState :=
  { s with cpts := s.cpts ++ [name] }

/-- `openground.insert_in_bulk` on `StaticConePenetrationData`: appends
`n` measurement rows for the test. -/
def bulkInsertMeas (s : RemoteState) (name : String) (n : ℕ) : RemoteState :=
  { s with meas := s.meas ++ [(name, n)] }

/-- Modelled from the spec: `delete_cpt_by_id` is called by the batch loop
in `etl/main.py` but its definition is missing from the sources under
`src/`; per the spec, deleting a test-general record removes it and, via
the remote platform's cascade, its measurement rows. -/
def delete_cpt_by_id (s : RemoteState) (name : String) : RemoteState :=
  { s with cpts := s.cpts.erase name,
           meas := s.meas.filter (fun p => decide (p.1 ≠ name)) }

/-- `openground.delete_location_by_id`: deletes the location; the remote
platform's cascade removes the dependent test-general record and its
measurement rows (the test shares its name with the parent location). -/
def delete_location_by_id (s : RemoteState) (name : String) : RemoteState :=
  { locations := s.locations.erase name,
    cpts := s.cpts.erase name,
    meas := s.meas.filter (fun p => decide (p.1 ≠ name)) }

/-- Which remote calls fail for one test (a non-success HTTP status raising
an exception inside the `try` block of the batch loop). `rowsBeforeFail`
is the number of measurement rows already written when the bulk insert
fails. -/
structure Failures where
  failDeleteCpt : Bool
  failInsertTest : Bool
  failBulk : Bool
  rowsBeforeFail : ℕ
deriving DecidableEq

/-- A run with every remote call succeeding. -/
def noFailures : Failures := ⟨false, false, false, 0⟩

/-- Remote writes, in issue order, recorded for a run. -/
inductive WriteOp
  | createLocation (name : String)
  | deleteCpt (name : String)
  | createCpt (name : String)
  | bulkInsert (name : String) (rows : ℕ)
  | deleteLocation (name : String)
deriving DecidableEq

/-- Per-test terminal result of the batch-loop body. -/
inductive Outcome
  | skipped
  | loaded
  | rolledBack
  | halted
deriving DecidableEq

/-- Result of processing one test: the remote state afterwards, the
outcome, and the remote writes issued. -/
structure RunResult where
  state : RemoteState
  outcome : Outcome
  writes : List WriteOp
deriving DecidableEq

/-- The `try` block of the batch loop: delete the stale test-general
record when one existed, insert the test-general record
(`utils.insert_cpt_test`, which first checks that the location exists and
raises otherwise), then bulk-insert the measurement rows
(`utils.insert_cpt_data`, which ends by asserting that the stored row
count equals the series length). Returns the state reached, whether the
block completed without an exception, and the writes issued. -/
def tryBlock (f : Failures) (name : String) (n : ℕ) (cptExisted : Bool)
    (s : RemoteState) : RemoteState × Bool × List WriteOp :=
  if cptExisted && f.failDeleteCpt then (s, false, [])
  else
    let s1 := if cptExisted then delete_cpt_by_id s name else s
    let t1 : List WriteOp := if cptExisted then [WriteOp.deleteCpt name] else []
    if name ∈ s1.locations then
      if f.failInsertTest then (s1, false, t1)
      else
        let s2 := insertCpt s1 name
        let t2 := t1 ++ [WriteOp.createCpt name]
        if f.failBulk then
          if f.rowsBeforeFail = 0 then (s2, false, t2)
          else (bulkInsertMeas s2 name f.rowsBeforeFail, false,
                t2 ++ [WriteOp.bulkInsert name f.rowsBeforeFail])
        else
          let s3 := bulkInsertMeas s2 name n
          (s3, decide (measCount s3 name = n), t2 ++ [WriteOp.bulkInsert name n])
    else (s1, false, t1)

/-- One iteration of the batch loop in `etl/main.py`, after the file has
been parsed into a test named `name` with `n` measurement rows: skip when
the test-general record exists with a matching row count, create the
location when absent, run the `try` block, and on failure roll back by
deleting the location (the exception handler looks the location up again
and raises a `KeyError`, halting the run, when it is absent). -/
def processCpt (f : Failures) (name : String) (n : ℕ) (s : RemoteState) :
    RunResult :=
  if name ∈ s.cpts ∧ measCount s name = n then ⟨s, Outcome.skipped, []⟩
  else
    let ls : RemoteState × List WriteOp :=
      if name ∈ s.locations then (s, [])
      else (insertLocation s name, [WriteOp.createLocation name])
    let tb := tryBlock f name n (decide (name ∈ s.cpts)) ls.1
    if tb.2.1 then ⟨tb.1, Outcome.loaded, ls.2 ++ tb.2.2⟩
    else if name ∈ tb.1.locations then
      ⟨delete_location_by_id tb.1 name, Outcome.rolledBack,
       ls.2 ++ tb.2.2 ++ [WriteOp.deleteLocation name]⟩
    else ⟨tb.1, Outcome.halted, ls.2 ++ tb.2.2⟩

theorem measCount_filterOut_append (l : List (String × ℕ)) (name : String) (n : ℕ) :
    (((l.filter (fun p => decide (p.1 ≠ name)) ++ [(name, n)]).filter
        (fun p => decide (p.1 = name))).map (fun p => p.2)).sum = n := by
  induction l with
  | nil => simp
  | cons hd tl ih =>
    by_cases h : hd.1 = name
    · simp [h, ih]
    · simp only [List.filter_cons, h, decide_eq_true_eq, not_false_iff, decide_True,
        if_true, List.cons_append, ne_eq]
      simpa [h] using ih

theorem measCount_append_fresh (l : List (String × ℕ)) (name : String) (n : ℕ)
    (h : ∀ p ∈ l, p.1 ≠ name) :
    (((l ++ [(name, n)]).filter (fun p => decide (p.1 = name))).map
      (fun p => p.2)).sum = n := by
  induction l with
  | nil => simp
  | cons hd tl ih =>
    have hhd : hd.1 ≠ name := h hd (by simp)
    simp only [List.cons_append, List.filter_cons, hhd, decide_eq_true_eq, if_false]
    exact ih (fun p hp => h p (by simp [hp]))

theorem measCount_filter_zero (l : List (String × ℕ)) (name : String) :
    (((l.filter (fun p => decide (p.1 ≠ name))).filter
        (fun p => decide (p.1 = name))).map (fun p => p.2)).sum = 0 := by
  induction l with
  | nil => simp
  | cons hd tl ih =>
    by_cases h : hd.1 = name <;> simp [List.filter_cons, h, ih]

/-- The `try` block never touches location records. -/
theorem tryBlock_locations (f : Failures) (name : String) (n : ℕ)
    (b : Bool) (s : RemoteState) :
    (tryBlock f name n b s).1.locations = s.locations := by
  unfold tryBlock
  split_ifs <;> (try simp only [delete_cpt_by_id, insertCpt, bulkInsertMeas]) <;>
    first
      | rfl
      | (split <;> rfl)

/-- The batch-loop body never halts the run from inside the rollback
handler: the location it deletes always exists, because the body created
it when it was absent and nothing inside the `try` block removes it. -/
theorem processCpt_ne_halted (f : Failures) (name : String) (n : ℕ)
    (s : RemoteState) : (processCpt f name n s).outcome ≠ Outcome.halted := by
  unfold processCpt
  dsimp only
  by_cases h1 : name ∈ s.cpts ∧ measCount s name = n
  · rw [if_pos h1]
    simp
  · rw [if_neg h1]
    by_cases h2 : name ∈ s.locations
    · rw [if_pos h2]
      dsimp only
      have hloc : name ∈ (tryBlock f name n (decide (name ∈ s.cpts)) s).1.locations := by
        rw [tryBlock_locations]
        exact h2
      by_cases hb : (tryBlock f name n (decide (name ∈ s.cpts)) s).2.1 = true
      · rw [if_pos hb]
        simp
      · rw [if_neg hb, if_pos hloc]
        simp
    · rw [if_neg h2]
      dsimp only
      have hloc : name ∈
          (tryBlock f name n (decide (name ∈ s.cpts)) (insertLocation s name)).1.locations := by
        rw [tryBlock_locations]
        simp [insertLocation]
      by_cases hb :
          (tryBlock f name n (decide (name ∈ s.cpts)) (insertLocation s name)).2.1 = true
      · rw [if_pos hb]
        simp
      · rw [if_neg hb, if_pos hloc]
        simp

/-- C3: for a partially loaded test (test-general record exists but the
remote measurement-row count differs from the parsed series length) the
orchestrator deletes the existing test-general record — the cascade
removing its measurement rows — then re-runs the fresh-insert path:
create the test-general record, then bulk-insert the measurement rows. -/
theorem stale_test_reload (name : String) (n : ℕ) (s : RemoteState)
    (hc : name ∈ s.cpts) (hm : measCount s name ≠ n) (hl : name ∈ s.locations) :
    (processCpt noFailures name n s).writes =
      [WriteOp.deleteCpt name, WriteOp.createCpt name, WriteOp.bulkInsert name n] ∧
    (processCpt noFailures name n s).outcome = Outcome.loaded ∧
    name ∈ (processCpt noFailures name n s).state.cpts ∧
    measCount (processCpt noFailures name n s).state name = n := by
  have hskip : ¬(name ∈ s.cpts ∧ measCount s name = n) := fun h => hm h.2
  have hcount :
      measCount (bulkInsertMeas (insertCpt (delete_cpt_by_id s name) name) name n)
        name = n := by
    simp only [measCount, bulkInsertMeas, insertCpt, delete_cpt_by_id]
    exact measCount_filterOut_append s.meas name n
  unfold processCpt
  rw [if_neg hskip, if_pos hl]
  unfold tryBlock
  simp only [noFailures, Bool.and_false, Bool.false_eq_true, if_false,
    decide_eq_true_eq, hc, if_true, if_pos hl, ite_false, ite_true]
  rw [if_pos (show name ∈ (delete_cpt_by_id s name).locations from hl)]
  simp only [hcount, decide_True]
  refine ⟨rfl, rfl, ?_, hcount⟩
  simp [insertCpt, bulkInsertMeas]

/-- Witness for the partially-loaded transition at a concrete state. -/
theorem stale_test_reload_witness :
    (processCpt noFailures "B-1" 3 ⟨["B-1"], ["B-1"], [("B-1", 2)]⟩).writes =
      [WriteOp.deleteCpt "B-1", WriteOp.createCpt "B-1",
       WriteOp.bulkInsert "B-1" 3] ∧
    (processCpt noFailures "B-1" 3 ⟨["B-1"], ["B-1"], [("B-1", 2)]⟩).outcome =
      Outcome.loaded ∧
    "B-1" ∈ (processCpt noFailures "B-1" 3
      ⟨["B-1"], ["B-1"], [("B-1", 2)]⟩).state.cpts ∧
    measCount (processCpt noFailures "B-1" 3
      ⟨["B-1"], ["B-1"], [("B-1", 2)]⟩).state "B-1" = 3 :=
  stale_test_reload "B-1" 3 ⟨["B-1"], ["B-1"], [("B-1", 2)]⟩
    (by decide) (by decide) (by decide)

/-- C4: when the test-general insert or the measurement bulk-insert fails
for a test that was fresh (no location, no test-general record), the
orchestrator deletes the just-created location, and afterwards neither the
location nor the test-general record nor any measurement row for that test
remains in the remote store. -/
theorem rollback_removes_pending_writes (f : Failures) (name : String) (n : ℕ)
    (s : RemoteState) (hl : name ∉ s.locations) (hc : name ∉ s.cpts)
    (hf : f.failInsertTest = true ∨ f.failBulk = true) :
    (processCpt f name n s).outcome = Outcome.rolledBack ∧
    name ∉ (processCpt f name n s).state.locations ∧
    name ∉ (processCpt f name n s).state.cpts ∧
    measCount (processCpt f name n s).state name = 0 := by
  have hskip : ¬(name ∈ s.cpts ∧ measCount s name = n) := fun h => hc h.1
  have hmemloc : name ∈ (insertLocation s name).locations := by
    simp [insertLocation]
  have hloc_erase : (s.locations ++ [name]).erase name = s.locations := by
    rw [List.erase_append_right _ hl]
    simp
  have hcpt_erase : (s.cpts ++ [name]).erase name = s.cpts := by
    rw [List.erase_append_right _ hc]
    simp
  unfold processCpt
  rw [if_neg hskip, if_neg hl]
  unfold tryBlock
  simp only [decide_eq_true_eq, hc, decide_False, Bool.false_and,
    Bool.false_eq_true, if_false, ite_false, if_pos hmemloc]
  rcases hf with hf | hf
  · rw [if_pos hf]
    simp only [tryBlock_locations]
    rw [if_pos hmemloc]
    refine ⟨rfl, ?_, ?_, ?_⟩
    · simp only [delete_location_by_id, insertLocation, hloc_erase]
      exact hl
    · simp only [delete_location_by_id, insertLocation]
      rw [List.erase_of_not_mem hc]
      exact hc
    · simp only [delete_location_by_id, insertLocation, measCount]
      exact measCount_filter_zero s.meas name
  · by_cases hit : f.failInsertTest = true
    · rw [if_pos hit]
      rw [if_pos (show name ∈ (insertLocation s name).locations from hmemloc)]
      refine ⟨rfl, ?_, ?_, ?_⟩
      · simp only [delete_location_by_id, insertLocation, hloc_erase]
        exact hl
      · simp only [delete_location_by_id, insertLocation]
        rw [List.erase_of_not_mem hc]
        exact hc
      · simp only [delete_location_by_id, insertLocation, measCount]
        exact measCount_filter_zero s.meas name
    · rw [if_neg hit, if_pos hf]
      by_cases hr : f.rowsBeforeFail = 0
      · rw [if_pos hr]
        rw [if_pos (show name ∈ (insertCpt (insertLocation s name) name).locations
          from hmemloc)]
        refine ⟨rfl, ?_, ?_, ?_⟩
        · simp only [delete_location_by_id, insertCpt, insertLocation, hloc_erase]
          exact hl
        · simp only [delete_location_by_id, insertCpt, insertLocation, hcpt_erase]
          exact hc
        · simp only [delete_location_by_id, insertCpt, insertLocation, measCount]
          exact measCount_filter_zero s.meas name
      · rw [if_neg hr]
        rw [if_pos (show name ∈ (bulkInsertMeas (insertCpt (insertLocation s name) name)
          name f.rowsBeforeFail).locations from hmemloc)]
        refine ⟨rfl, ?_, ?_, ?_⟩
        · simp only [delete_location_by_id, bulkInsertMeas, insertCpt,
            insertLocation, hloc_erase]
          exact hl
        · simp only [delete_location_by_id, bulkInsertMeas, insertCpt,
            insertLocation, hcpt_erase]
          exact hc
        · simp only [delete_location_by_id, bulkInsertMeas, insertCpt,
            insertLocation, measCount]
          rw [List.filter_append]
          simp only [List.filter_cons, List.filter_nil, decide_eq_true_eq]
          rw [if_neg (by simp)]
          simpa using measCount_filter_zero s.meas name

/-- Witness for the rollback theorem at a concrete failing bulk insert. -/
theorem rollback_removes_pending_writes_witness :
    (processCpt ⟨false, false, true, 1⟩ "B-2" 4 ⟨[], [], []⟩).outcome =
      Outcome.rolledBack ∧
    "B-2" ∉ (processCpt ⟨false, false, true, 1⟩ "B-2" 4 ⟨[], [], []⟩).state.locations ∧
    "B-2" ∉ (processCpt ⟨false, false, true, 1⟩ "B-2" 4 ⟨[], [], []⟩).state.cpts ∧
    measCount (processCpt ⟨false, false, true, 1⟩ "B-2" 4 ⟨[], [], []⟩).state "B-2" = 0 :=
  rollback_removes_pending_writes ⟨false, false, true, 1⟩ "B-2" 4 ⟨[], [], []⟩
    (by decide) (by decide) (Or.inr rfl)

/-- With no remote failures, the `try` block completes: stale test-general
record deleted when one existed, test-general record created, measurement
rows bulk-inserted, and the post-insert count check passes. -/
theorem tryBlock_noFail (name : String) (n : ℕ) (b : Bool) (s : RemoteState)
    (hloc : name ∈ s.locations)
    (hfresh : b = false → ∀ p ∈ s.meas, p.1 ≠ name) :
    tryBlock noFailures name n b s =
      (bulkInsertMeas (insertCpt (if b = true then delete_cpt_by_id s name else s)
          name) name n,
       true,
       (if b = true then [WriteOp.deleteCpt name] else []) ++
         [WriteOp.createCpt name] ++ [WriteOp.bulkInsert name n]) := by
  cases b with
  | false =>
    have hcount : measCount (bulkInsertMeas (insertCpt s name) name n) name = n := by
      simp only [measCount, bulkInsertMeas, insertCpt]
      exact measCount_append_fresh s.meas name n (hfresh rfl)
    unfold tryBlock
    simp only [noFailures, Bool.and_false, Bool.false_eq_true, if_false,
      ite_false, if_pos hloc, hcount, decide_True]
  | true =>
    have hcount : measCount (bulkInsertMeas (insertCpt (delete_cpt_by_id s name)
        name) name n) name = n := by
      simp only [measCount, bulkInsertMeas, insertCpt, delete_cpt_by_id]
      exact measCount_filterOut_append s.meas name n
    have hloc2 : name ∈ (delete_cpt_by_id s name).locations := hloc
    unfold tryBlock
    simp only [noFailures, Bool.and_false, Bool.false_eq_true, if_false,
      ite_true, if_pos hloc2, hcount, decide_True]

/-- After a failure-free run, the test is fully loaded: the test-general
record exists and the stored measurement-row count equals the parsed
series length. The hypothesis says every stored measurement row belongs
to an existing test-general record, the remote platform's
referential-integrity invariant. -/
theorem processCpt_noFail_fullyLoaded (name : String) (n : ℕ) (s : RemoteState)
    (howned : ∀ p ∈ s.meas, p.1 ∈ s.cpts) :
    name ∈ (processCpt noFailures name n s).state.cpts ∧
    measCount (processCpt noFailures name n s).state name = n := by
  by_cases h1 : name ∈ s.cpts ∧ measCount s name = n
  · unfold processCpt
    rw [if_pos h1]
    exact ⟨h1.1, h1.2⟩
  · unfold processCpt
    rw [if_neg h1]
    dsimp only
    by_cases h2 : name ∈ s.locations
    · rw [if_pos h2]
      dsimp only
      by_cases hc : name ∈ s.cpts
      · rw [show decide (name ∈ s.cpts) = true from by simp [hc]]
        rw [tryBlock_noFail name n true s h2 (by intro hff; exact absurd hff (by simp))]
        dsimp only [ite_true]
        have hcount : measCount (bulkInsertMeas (insertCpt (delete_cpt_by_id s name)
            name) name n) name = n := by
          simp only [measCount, bulkInsertMeas, insertCpt, delete_cpt_by_id]
          exact measCount_filterOut_append s.meas name n
        rw [if_pos rfl]
        refine ⟨?_, hcount⟩
        simp [bulkInsertMeas, insertCpt, delete_cpt_by_id]
      · rw [show decide (name ∈ s.cpts) = false from by simp [hc]]
        have hfresh : ∀ p ∈ s.meas, p.1 ≠ name := by
          intro p hp he
          exact hc (he ▸ howned p hp)
        rw [tryBlock_noFail name n false s h2 (fun _ => hfresh)]
        dsimp only [Bool.false_eq_true, ite_false]
        have hcount : measCount (bulkInsertMeas (insertCpt s name) name n) name = n := by
          simp only [measCount, bulkInsertMeas, insertCpt]
          exact measCount_append_fresh s.meas name n hfresh
        rw [if_pos rfl]
        refine ⟨?_, hcount⟩
        simp [bulkInsertMeas, insertCpt]
    · rw [if_neg h2]
      dsimp only
      have h2' : name ∈ (insertLocation s name).locations := by simp [insertLocation]
      by_cases hc : name ∈ s.cpts
      · rw [show decide (name ∈ s.cpts) = true from by simp [hc]]
        rw [tryBlock_noFail name n true (insertLocation s name) h2'
          (by intro hff; exact absurd hff (by simp))]
        dsimp only [ite_true]
        have hcount : measCount (bulkInsertMeas (insertCpt
            (delete_cpt_by_id (insertLocation s name) name) name) name n) name = n := by
          simp only [measCount, bulkInsertMeas, insertCpt, delete_cpt_by_id,
            insertLocation]
          exact measCount_filterOut_append s.meas name n
        rw [if_pos rfl]
        refine ⟨?_, hcount⟩
        simp [bulkInsertMeas, insertCpt, delete_cpt_by_id, insertLocation]
      · rw [show decide (name ∈ s.cpts) = false from by simp [hc]]
        have hfresh : ∀ p ∈ (insertLocation s name).meas, p.1 ≠ name := by
          intro p hp he
          exact hc (he ▸ howned p hp)
        rw [tryBlock_noFail name n false (insertLocation s name) h2' (fun _ => hfresh)]
        dsimp only [Bool.false_eq_true, ite_false]
        have hcount : measCount (bulkInsertMeas (insertCpt (insertLocation s name)
            name) name n) name = n := by
          simp only [measCount, bulkInsertMeas, insertCpt, insertLocation]
          exact measCount_append_fresh s.meas name n hfresh
        rw [if_pos rfl]
        refine ⟨?_, hcount⟩
        simp [bulkInsertMeas, insertCpt, insertLocation]

/-- C5: the load pipeline is idempotent per test. When the test-general
record exists remotely with a measurement-row count equal to the parsed
series length, the orchestrator performs no remote writes and leaves the
state untouched; consequently, running the pipeline a second time on the
state produced by a (failure-free) first run skips the test, issues no
writes, and leaves the remote state equal to the state after one run. The
hypothesis is the remote platform's referential-integrity invariant:
every stored measurement row belongs to an existing test-general
record. -/
theorem second_run_is_noop (name : String) (n : ℕ) (s : RemoteState)
    (howned : ∀ p ∈ s.meas, p.1 ∈ s.cpts) :
    (∀ (f : Failures) (t : RemoteState), name ∈ t.cpts → measCount t name = n →
        processCpt f name n t = ⟨t, Outcome.skipped, []⟩) ∧
    processCpt noFailures name n ((processCpt noFailures name n s).state) =
      ⟨(processCpt noFailures name n s).state, Outcome.skipped, []⟩ := by
  have hskip : ∀ (f : Failures) (t : RemoteState), name ∈ t.cpts →
      measCount t name = n → processCpt f name n t = ⟨t, Outcome.skipped, []⟩ := by
    intro f t hc hm
    unfold processCpt
    rw [if_pos ⟨hc, hm⟩]
  refine ⟨hskip, ?_⟩
  obtain ⟨hc, hm⟩ := processCpt_noFail_fullyLoaded name n s howned
  exact hskip noFailures _ hc hm

/-- Witness for idempotence: loading a fresh test once and re-running the
pipeline on the resulting state is a skip with no writes. -/
theorem second_run_is_noop_witness :
    processCpt noFailures "B-3" 2 ((processCpt noFailures "B-3" 2 ⟨[], [], []⟩).state) =
      ⟨(processCpt noFailures "B-3" 2 ⟨[], [], []⟩).state, Outcome.skipped, []⟩ :=
  (second_run_is_noop "B-3" 2 ⟨[], [], []⟩ (by intro p hp; simp at hp)).2

/-! ## The batch driver loop (`etl/main.py`, `__main__`) -/

/-- One manifest entry of the batch driver: the target test name, the
outcome of parsing its source file (`utils.parse_conetec` raises on a
non-conforming file; on success `Except.ok n` carries the finalized series
length), and the remote-call failures met while loading it. -/
structure ManifestJob where
  name : String
  parse : Except String ℕ
  fails : Failures

/-- The batch-driver loop: for each manifest entry, parse the file — an
exception here is raised outside the `try` block and terminates the whole
run — then process the test, where exceptions inside the `try` block are
handled per test (rollback) and the loop moves on. Returns the final
remote state, the unhandled exception if one occurred, and the per-test
outcomes logged. -/
def runBatch : List ManifestJob → RemoteState →
    RemoteState × Option String × List (String × Outcome)
  | [], s => (s, none, [])
  | j :: rest, s =>
    match j.parse with
    | Except.error e => (s, some e, [])
    | Except.ok n =>
      let r := processCpt j.fails j.name n s
      if r.outcome = Outcome.halted then
        (r.state, some "KeyError", [(j.name, r.outcome)])
      else
        let k := runBatch rest r.state
        (k.1, k.2.1, (j.name, r.outcome) :: k.2.2)

/-- C6 counterexample: with a manifest whose first file does not parse and
whose second file is well-formed, the run terminates at the first entry —
the second test is never processed or loaded — refuting the claim that the
driver moves on to the next manifest entry after a parser error. -/
theorem parse_error_halts_batch :
    runBatch [⟨"A-1", Except.error "FormatError", noFailures⟩,
              ⟨"A-2", Except.ok 2, noFailures⟩] ⟨[], [], []⟩ =
      (⟨[], [], []⟩, some "FormatError", []) ∧
    "A-2" ∉ (runBatch [⟨"A-1", Except.error "FormatError", noFailures⟩,
              ⟨"A-2", Except.ok 2, noFailures⟩] ⟨[], [], []⟩).1.cpts := by
  constructor
  · rfl
  · intro h
    simp only [runBatch] at h
    simp at h

/-- C6 (amended): a parser or model error on a manifest entry is raised
outside the `try` block and halts the whole run — the remote state is left
as it was and no later entry is processed — while remote-write failures
are confined to their own test: when every file in the manifest parses,
the batch loop completes, logging an outcome for every entry, whatever
remote failures occur. -/
theorem batch_error_containment :
    (∀ (name e : String) (f : Failures) (rest : List ManifestJob) (s : RemoteState),
        runBatch (⟨name, Except.error e, f⟩ :: rest) s = (s, some e, [])) ∧
    (∀ (jobs : List ManifestJob) (s : RemoteState),
        (∀ j ∈ jobs, ∃ n, j.parse = Except.ok n) →
        (runBatch jobs s).2.1 = none ∧
        (runBatch jobs s).2.2.length = jobs.length) := by
  constructor
  · intro name e f rest s
    rfl
  · intro jobs
    induction jobs with
    | nil =>
      intro s _
      exact ⟨rfl, rfl⟩
    | cons j rest ih =>
      intro s h
      obtain ⟨n, hn⟩ := h j (by simp)
      have hne : (processCpt j.fails j.name n s).outcome ≠ Outcome.halted :=
        processCpt_ne_halted j.fails j.name n s
      simp only [runBatch]
      rw [hn]
      simp only [if_neg hne]
      have hrest := ih (processCpt j.fails j.name n s).state
        (fun j' hj' => h j' (by simp [hj']))
      exact ⟨hrest.1, by simp [hrest.2]⟩

/-- Witness for the batch containment theorem: a one-entry manifest whose
parse fails halts immediately, and a one-entry manifest whose remote
test-general insert fails still completes the loop with one logged
outcome. -/
theorem batch_error_containment_witness :
    runBatch [⟨"A-3", Except.error "SchemaViolation", noFailures⟩] ⟨[], [], []⟩ =
      (⟨[], [], []⟩, some "SchemaViolation", []) ∧
    (runBatch [⟨"A-4", Except.ok 3, ⟨false, true, false, 0⟩⟩] ⟨[], [], []⟩).2.1 =
      none ∧
    (runBatch [⟨"A-4", Except.ok 3, ⟨false, true, false, 0⟩⟩]
      ⟨[], [], []⟩).2.2.length = 1 :=
  ⟨batch_error_containment.1 "A-3" "SchemaViolation" noFailures [] ⟨[], [], []⟩,
   batch_error_containment.2 [⟨"A-4", Except.ok 3, ⟨false, true, false, 0⟩⟩]
     ⟨[], [], []⟩ (by
       intro j hj
       rw [List.mem_singleton] at hj
       subst hj
       exact ⟨3, rfl⟩)⟩

/-! ## The spreadsheet parser (`utils.parse_conetec`, `models.py`)

Cells are modelled exactly: a blank (NaN), a string, or an exact number
(the vendor files carry decimal readings; ℚ models them exactly, so the
spec's 1e-9 floating-point tolerance is subsumed by exact equality). -/

/-- A spreadsheet cell as loaded by `pd.read_excel`. -/
inductive Cell
  | blank
  | str (s : String)
  | num (q : ℚ)
deriving DecidableEq

/-- `pd.isnull` on one cell. -/
def Cell.isBlank : Cell → Bool
  | Cell.blank => true
  | _ => false

/-- A raw sheet: a list of rows of cells. -/
abbrev Grid := List (List Cell)

/-- The sheet's column count: the longest row. -/
def maxLen (g : Grid) : ℕ := g.foldr (fun r acc => max r.length acc) 0

/-- Pad a row with NaN cells to the sheet's column count, as `read_excel`
does for short rows. -/
def padRow (n : ℕ) (r : List Cell) : List Cell :=
  r ++ List.replicate (n - r.length) Cell.blank

/-- `pd.read_excel(filepath, header=None)` followed by `df.iloc[:, 1:]`:
the rectangular grid with the leading index column discarded. -/
def prep (g : Grid) : Grid := (g.map (padRow (maxLen g))).map (List.drop 1)

/-- `df.isnull().sum(axis=1) == len(df.columns)`: the row is entirely
blank across all columns. -/
def isBlankRow (r : List Cell) : Bool := r.all Cell.isBlank

/-- `pd.Index.max()` over a list of indices (`None`-valued when empty). -/
def natListMax? : List ℕ → Option ℕ
  | [] => none
  | a :: rest =>
    match natListMax? rest with
    | none => some a
    | some b => some (max a b)

/-- Indices of the entirely-blank rows. -/
def blankRowIndices (g : Grid) : List ℕ :=
  (List.range g.length).filter (fun i => isBlankRow (g.getD i []))

/-- `utils.py` lines 29-32: `end_of_metadata` is the largest index of an
entirely blank row; `if not end_of_metadata > 0` raises `IOError` both
when no blank row exists (the max is NaN) and when it is row 0. -/
def metadataBoundary (g : Grid) : Except String ℕ :=
  match natListMax? (blankRowIndices g) with
  | none => Except.error "Empty row between metadata and CPT data not satisfied."
  | some e =>
    if e = 0 then
      Except.error "Empty row between metadata and CPT data not satisfied."
    else Except.ok e

/-- The metadata block: all rows before the boundary (`df[:end_of_metadata]`). -/
def metaRows (g : Grid) (e : ℕ) : List (List Cell) := g.take e

/-- The fixed allow-list of known ConeTec metadata field names
(`expected` in `utils.py`). -/
def expectedFields : List String :=
  ["Interpretation Format:", "Run ID:", "Job No:", "Client:", "Project:",
   "Facility:", "Sounding ID:", "Cone ID:", "Operator:", "CPT Date:",
   "CPT Time:", "CPT File:", "Tip Units:", "Sleeve Units:", "PP Units:",
   "Tip Conversion to bar:", "Sleeve Conversion to bar:",
   "PP Conversion to meters:", "Easting / Long:", "Northing / Lat:",
   "Elevation:", "Tip Net Area Ratio:", "Averaging Interval:",
   "Col  5 (Extra Module) Parameter", "Col  5 (Extra Module) Units",
   "Coord Source:", "Coord Type:", "UTM Zone:",
   "Norm. SBT Charts extended for Low Fr:", "Extended Y Axis on SBT Charts:"]

/-- Char-list version of `startsWith`. -/
def startsWithChars : List Char → List Char → Bool
  | [], _ => true
  | _ :: _, [] => false
  | a :: as, b :: bs => a == b && startsWithChars as bs

/-- Substring search over char lists. -/
def hasSubChars (needle : List Char) : List Char → Bool
  | [] => needle.isEmpty
  | b :: rest => startsWithChars needle (b :: rest) || hasSubChars needle rest

/-- Python's `needle in hay` on strings. -/
def containsSub (needle hay : String) : Bool := hasSubChars needle.data hay.data

/-- `dropna(axis=1, how="all")` on the metadata block: a column survives
when some metadata row is non-blank there. -/
def colIsAllBlank (rows : List (List Cell)) (j : ℕ) : Bool :=
  rows.all (fun r => (r.getD j Cell.blank).isBlank)

def metaKeptCols (rows : List (List Cell)) (ncols : ℕ) : List ℕ :=
  (List.range ncols).filter (fun j => !(colIsAllBlank rows j))

/-- Metadata extraction (`utils.py` lines 35-90): the rows before the
boundary reduced to exactly two non-blank columns — field and value
(`pandas` raises a length mismatch otherwise) — with the vendor signature
required as a substring of the first field cell (Python's `in` raises on
a non-string cell), rows with a blank value dropped
(`dropna(axis=0, how="all")` after `set_index`), and every remaining
field name asserted to be on the fixed allow-list. -/
def extractMeta (g : Grid) (e : ℕ) : Except String (List (String × Cell)) :=
  let rows := metaRows g e
  match metaKeptCols rows (maxLen g) with
  | [fcol, vcol] =>
    match (rows.getD 0 []).getD fcol Cell.blank with
    | Cell.str s0 =>
      if containsSub "ConeTec" s0 || containsSub "CPT Inc." s0 then
        let entries := rows.filterMap (fun r =>
          let vv := r.getD vcol Cell.blank
          if vv.isBlank then none else some (r.getD fcol Cell.blank, vv))
        if entries.all (fun p =>
            match p.1 with
            | Cell.str k => expectedFields.contains k
            | _ => false) then
          Except.ok (entries.filterMap (fun p =>
            match p.1 with
            | Cell.str k => some (k, p.2)
            | _ => none))
        else Except.error "AssertionError: unexpected metadata field"
      else Except.error "Conetec name not in header"
    | _ => Except.error "Conetec name not in header"
  | _ => Except.error "Length mismatch: metadata does not reduce to two columns"

/-- The expected column-name header row (`utils.py` line 94). -/
def headerCells : List Cell :=
  [Cell.str "Depth", Cell.str "Depth", Cell.str "qc", Cell.str "qt",
   Cell.str "fs", Cell.str "u", Cell.str "Rf"]

/-- The expected units row (`utils.py` line 98). -/
def unitsCells : List Cell :=
  [Cell.str "m", Cell.str "ft", Cell.str "tsf", Cell.str "tsf",
   Cell.str "tsf", Cell.str "ft", Cell.str "%"]

/-- Column-name and units validation (`utils.py` lines 93-99). -/
def checkHeaderUnits (g : Grid) (e : ℕ) : Except String Unit :=
  if g.getD (e + 1) [] = headerCells then
    if g.getD (e + 2) [] = unitsCells then Except.ok ()
    else Except.error "Parsed units differ."
  else Except.error "Parsed columns differ."

/-- Data-block extraction (`utils.py` lines 103-114): the rows two past
the header row, with the meter-depth column (position 0) and the `Rf`
column (position 6) dropped, leaving depth [ft], qc, qt, fs, u. -/
def dataCells (g : Grid) (e : ℕ) : List (List Cell) :=
  (g.drop (e + 3)).map (fun r =>
    [r.getD 1 Cell.blank, r.getD 2 Cell.blank, r.getD 3 Cell.blank,
     r.getD 4 Cell.blank, r.getD 5 Cell.blank])

/-- One finalized measurement row (depth [ft], qc, qt, fs [tsf], u [tsf]). -/
structure MeasRow where
  depth : Option ℚ
  qc : Option ℚ
  qt : Option ℚ
  fs : Option ℚ
  u : Option ℚ
deriving DecidableEq

/-- `data.astype(float)` on one cell: blank stays NaN, numbers pass,
strings raise. -/
def toFloat : Cell → Except String (Option ℚ)
  | Cell.blank => Except.ok none
  | Cell.num q => Except.ok (some q)
  | Cell.str s => Except.error ("could not convert string to float: " ++ s)

/-- `data.mask(data <= -9000, np.nan)` on one value. -/
def maskSentinel : Option ℚ → Option ℚ
  | some q => if q ≤ -9000 then none else some q
  | none => none

/-- The pore-pressure conversion factor, ft of water to tsf
(`utils.py` line 121). -/
def uConvFactor : ℚ := 62.4 / 2000

/-- Cleaning of one data row: float coercion, sentinel masking on every
channel, then the pore-pressure unit conversion on `u`. -/
def cleanRow (cells : List Cell) : Except String MeasRow := do
  let d ← toFloat (cells.getD 0 Cell.blank)
  let qc ← toFloat (cells.getD 1 Cell.blank)
  let qt ← toFloat (cells.getD 2 Cell.blank)
  let fs ← toFloat (cells.getD 3 Cell.blank)
  let u ← toFloat (cells.getD 4 Cell.blank)
  Except.ok ⟨maskSentinel d, maskSentinel qc, maskSentinel qt, maskSentinel fs,
             (maskSentinel u).map (fun q => q * uConvFactor)⟩

/-- Row-by-row cleaning of the data block. -/
def mapCleanRows : List (List Cell) → Except String (List MeasRow)
  | [] => Except.ok []
  | c :: rest => do
    let r ← cleanRow c
    let rs ← mapCleanRows rest
    Except.ok (r :: rs)

/-- Python `str()` on a metadata cell value (numeric cells passed through
`str` in these files are integers such as `Run ID`; non-integer numeric
formatting is approximated). -/
def pyStr : Cell → String
  | Cell.str s => s
  | Cell.num q => if q.den = 1 then toString q.num else toString q
  | Cell.blank => "nan"

/-- `df_meta.loc[key, "Value"]`: `KeyError` when the field is absent. -/
def metaLookup (meta : List (String × Cell)) (key : String) : Except String Cell :=
  match meta.find? (fun p => decide (p.1 = key)) with
  | some p => Except.ok p.2
  | none => Except.error ("KeyError: " ++ key)

/-- Everything `parse_conetec` computes before constructing the
`CPTGeneral`/`CPTData` objects. -/
structure ConetecPayload where
  rows : List MeasRow
  timestamp : String
  area_ratio : Cell
  cone_id : String
  test_id : String
  cone_type : String
  subcontractor : String
deriving DecidableEq

/-- `utils.parse_conetec` up to — but not including — the construction of
the `CPTGeneral`/`CPTData` objects: boundary location, metadata
extraction and validation, header and units checks, data cleaning (float
coercion, sentinel masking at ≤ −9000, pore-pressure conversion),
timestamp composition, and the metadata lookups feeding the constructor
arguments, in source order. `cone_type` and `subcontractor` are the
constants of `utils.py` lines 134-135; the `pd.to_datetime .. strftime`
normalization of the composed timestamp string is not modelled (no claim
refers to it). -/
def parseConetecPayload (raw : Grid) : Except String ConetecPayload := do
  let g := prep raw
  let e ← metadataBoundary g
  let meta ← extractMeta g e
  let _ ← checkHeaderUnits g e
  let rows ← mapCleanRows (dataCells g e)
  let dateC ← metaLookup meta "CPT Date:"
  let timeC ← metaLookup meta "CPT Time:"
  let arC ← metaLookup meta "Tip Net Area Ratio:"
  let coneC ← metaLookup meta "Cone ID:"
  let runC ← metaLookup meta "Run ID:"
  Except.ok { rows := rows, timestamp := pyStr dateC ++ " " ++ pyStr timeC,
              area_ratio := arC, cone_id := pyStr coneC, test_id := pyStr runC,
              cone_type := "EC", subcontractor := "ConeTec" }

/-! ### `models.py`: `CPTData._attrs_to_dataframe` -/

/-- Arguments of `CPTData.__init__`: each channel is a NumPy array of
possibly-missing readings, or `None` for an absent channel (`qt`
defaults to `None`; `qc` may also be passed as `None`). -/
structure CPTDataArgs where
  depth : List (Option ℚ)
  qc : Option (List (Option ℚ))
  fs : List (Option ℚ)
  u2 : List (Option ℚ)
  qt : Option (List (Option ℚ))

/-- One row of the `CPTData` dataframe. -/
structure DataRow where
  depth : Option ℚ
  qc : Option ℚ
  fs : Option ℚ
  u2 : Option ℚ
  qt : Option ℚ
deriving DecidableEq

/-- Value of a possibly-absent channel at row `i`. -/
def colVal : Option (List (Option ℚ)) → ℕ → Option ℚ
  | none, _ => none
  | some l, i => l.getD i none

def rowAt (a : CPTDataArgs) (i : ℕ) : DataRow :=
  ⟨a.depth.getD i none, colVal a.qc i, a.fs.getD i none, a.u2.getD i none,
   colVal a.qt i⟩

/-- The rows of the assembled dataframe, indexed by the depth column. -/
def cptRows (a : CPTDataArgs) : List DataRow :=
  (List.range a.depth.length).map (rowAt a)

/-- `CPTData._attrs_to_dataframe`: drops the rows where the subset
`["Depth", "ConeResistance"]` — or, when the raw resistance channel is
absent, `["Depth", "CorrectedConeResistance"]` — is entirely missing
(`dropna(axis=0, how="all", subset=cols)`); raises `ValueError` when
neither resistance channel is a column. -/
def attrs_to_dataframe (a : CPTDataArgs) : Except String (List DataRow) :=
  if a.qc.isSome then
    Except.ok ((cptRows a).filter (fun r => r.depth.isSome || r.qc.isSome))
  else if a.qt.isSome then
    Except.ok ((cptRows a).filter (fun r => r.depth.isSome || r.qt.isSome))
  else Except.error "Condition not designed for."

/-! ### The constructor calls closing `parse_conetec` -/

/-- The parameter names of `CPTGeneral.__init__` (`models.py` lines
26-40). -/
def cptGeneralParams : List String :=
  ["source_file", "cpt_id", "timestamp", "area_ratio", "cone_id", "depth_gwt",
   "pen_rate", "remarks", "subcontractor", "test_id", "cone_type",
   "pre_drill_depth"]

/-- The parameters of `CPTGeneral.__init__` without a default value. -/
def cptGeneralRequired : List String :=
  ["source_file", "cpt_id", "timestamp", "area_ratio", "cone_id", "depth_gwt",
   "pen_rate", "remarks", "subcontractor", "test_id", "cone_type"]

/-- The keyword names `parse_conetec` passes to `CPTGeneral`
(`utils.py` lines 128-141). -/
def conetecGeneralKwargs : List String :=
  ["source_file", "name", "timestamp", "area_ratio", "cone_id", "cone_type",
   "subcontractor", "test_id", "depth_gwt", "pen_rate", "remarks"]

/-- The parameter names of `CPTData.__init__` (`models.py` lines 113-121). -/
def cptDataParams : List String := ["cpt_id", "depth", "qc", "fs", "u2", "qt"]

/-- The parameters of `CPTData.__init__` without a default value. -/
def cptDataRequired : List String := ["cpt_id", "depth", "qc", "fs", "u2"]

/-- The keyword names `parse_conetec` passes to `CPTData`
(`utils.py` lines 143-150). -/
def conetecDataKwargs : List String :=
  ["cpt_name", "depth", "qc", "qt", "fs", "u2"]

/-- Python call binding: every keyword must name a parameter (else
`TypeError: unexpected keyword argument`) and every parameter without a
default must be bound (else `TypeError: missing required argument`). -/
def kwargsBindOk (params required kwargs : List String) : Bool :=
  kwargs.all (fun k => params.contains k) &&
    required.all (fun p => kwargs.contains p)

/-- `utils.parse_conetec(filepath, cpt_name)`: payload extraction followed
by the `CPTGeneral(...)` and `CPTData(...)` constructor calls. The
binding checks reflect Python call semantics at those two call sites; on
success (which the checks decide) the `CPTData` construction runs
`_attrs_to_dataframe` on the cleaned channels, every channel passed as an
array. `filepath` and `cpt_name` only feed the constructed objects and
are omitted. -/
def parse_conetec (raw : Grid) : Except String (ConetecPayload × List DataRow) := do
  let p ← parseConetecPayload raw
  if kwargsBindOk cptGeneralParams cptGeneralRequired conetecGeneralKwargs then
    if kwargsBindOk cptDataParams cptDataRequired conetecDataKwargs then
      let rows ← attrs_to_dataframe
        { depth := p.rows.map MeasRow.depth, qc := some (p.rows.map MeasRow.qc),
          fs := p.rows.map MeasRow.fs, u2 := p.rows.map MeasRow.u,
          qt := some (p.rows.map MeasRow.qt) }
      Except.ok (p, rows)
    else Except.error "TypeError: CPTData got an unexpected keyword argument"
  else Except.error "TypeError: CPTGeneral got an unexpected keyword argument"

/-- The drop rule exactly as the spec words it: a row is dropped iff its
depth and all present resistance channels are missing, i.e. kept iff its
depth or any present resistance channel carries a value. -/
def specKeepsRow (a : CPTDataArgs) (r : DataRow) : Bool :=
  r.depth.isSome || (a.qc.isSome && r.qc.isSome) || (a.qt.isSome && r.qt.isSome)

/-- The drop rule the code implements: only the primary resistance
channel — `qc` when present, else `qt` — takes part in the test. -/
def primaryKeep (a : CPTDataArgs) (r : DataRow) : Bool :=
  if a.qc.isSome then r.depth.isSome || r.qc.isSome
  else r.depth.isSome || r.qt.isSome

/-- A series whose single row has a missing depth and raw resistance but a
present corrected resistance. -/
def bothChannelArgs : CPTDataArgs :=
  { depth := [none], qc := some [none], fs := [some 1], u2 := [some 1],
    qt := some [some 1] }

/-- C7 counterexample: with both resistance channels present, a row whose
depth and raw resistance are missing but whose corrected resistance is
present is dropped by the code, although the claim's rule (drop only when
depth and all present resistance channels are missing) keeps it. -/
theorem drop_rule_counterexample :
    attrs_to_dataframe bothChannelArgs = Except.ok [] ∧
    cptRows bothChannelArgs = [rowAt bothChannelArgs 0] ∧
    specKeepsRow bothChannelArgs (rowAt bothChannelArgs 0) = true := by
  refine ⟨rfl, rfl, rfl⟩

/-- C7 (amended): during finalization a row is dropped iff its depth and
its primary resistance channel — the raw channel when present, else the
corrected one — are both missing; rows where either is present are kept;
and constructing a series with neither resistance channel present
fails. -/
theorem drop_rule_amended (a : CPTDataArgs) :
    (attrs_to_dataframe a = Except.error "Condition not designed for." ↔
      a.qc = none ∧ a.qt = none) ∧
    (∀ rows, attrs_to_dataframe a = Except.ok rows →
      rows = (cptRows a).filter (fun r => primaryKeep a r)) := by
  constructor
  · unfold attrs_to_dataframe
    rcases hqc : a.qc with _ | l
    · rcases hqt : a.qt with _ | l'
      · simp
      · simp
    · simp
  · intro rows hrows
    unfold attrs_to_dataframe at hrows
    rcases hqc : a.qc with _ | l
    · rcases hqt : a.qt with _ | l'
      · rw [hqc, hqt] at hrows
        simp at hrows
      · rw [hqc, hqt] at hrows
        simp only [Option.isSome_none, Bool.false_eq_true, if_false,
          Option.isSome_some, if_true, Except.ok.injEq] at hrows
        subst hrows
        refine List.filter_congr ?_
        intro r _
        simp [primaryKeep, hqc]
    · rw [hqc] at hrows
      simp only [Option.isSome_some, if_true, Except.ok.injEq] at hrows
      subst hrows
      refine List.filter_congr ?_
      intro r _
      simp [primaryKeep, hqc]

/-- A one-row series with a present depth, used to instantiate the
amended drop rule. -/
def keptRowArgs : CPTDataArgs :=
  { depth := [some 1], qc := some [some 2], fs := [none], u2 := [none],
    qt := none }

/-- Witness for the amended drop rule at a concrete series. -/
theorem drop_rule_amended_witness :
    [rowAt keptRowArgs 0] =
      (cptRows keptRowArgs).filter (fun r => primaryKeep keptRowArgs r) :=
  (drop_rule_amended keptRowArgs).2 [rowAt keptRowArgs 0] rfl

/-! ### Boundary characterization (C8) -/

theorem natListMax?_eq_none {l : List ℕ} : natListMax? l = none ↔ l = [] := by
  cases l with
  | nil => simp [natListMax?]
  | cons a rest =>
    simp only [natListMax?]
    constructor
    · intro h
      cases hr : natListMax? rest <;> rw [hr] at h <;> simp at h
    · intro h
      simp at h

theorem natListMax?_mem {l : List ℕ} {m : ℕ} (h : natListMax? l = some m) :
    m ∈ l := by
  induction l generalizing m with
  | nil => simp [natListMax?] at h
  | cons a rest ih =>
    simp only [natListMax?] at h
    cases hr : natListMax? rest with
    | none =>
      rw [hr] at h
      simp only [Option.some.injEq] at h
      subst h
      simp
    | some b =>
      rw [hr] at h
      simp only [Option.some.injEq] at h
      subst h
      rcases Nat.le_total a b with hab | hab
      · rw [max_eq_right hab]
        exact List.mem_cons_of_mem a (ih hr)
      · rw [max_eq_left hab]
        simp

theorem natListMax?_ub {l : List ℕ} {m : ℕ} (h : natListMax? l = some m) :
    ∀ x ∈ l, x ≤ m := by
  induction l generalizing m with
  | nil => simp
  | cons a rest ih =>
    simp only [natListMax?] at h
    cases hr : natListMax? rest with
    | none =>
      rw [hr] at h
      simp only [Option.some.injEq] at h
      subst h
      intro x hx
      rcases List.mem_cons.mp hx with hx | hx
      · exact hx.le
      · exact absurd (natListMax?_eq_none.mp hr ▸ hx) (List.not_mem_nil x)
    | some b =>
      rw [hr] at h
      simp only [Option.some.injEq] at h
      subst h
      intro x hx
      rcases List.mem_cons.mp hx with hx | hx
      · exact hx ▸ le_max_left a b
      · exact le_trans (ih hr x hx) (le_max_right a b)

theorem mem_blankRowIndices {g : Grid} {i : ℕ} :
    i ∈ blankRowIndices g ↔ i < g.length ∧ isBlankRow (g.getD i []) = true := by
  simp [blankRowIndices, List.mem_filter, List.mem_range]

/-- Helper: status of `metadataBoundary` as a Boolean. -/
def exceptOk {ε α : Type} : Except ε α → Bool
  | Except.ok _ => true
  | Except.error _ => false

/-- C8: locating the blank separator. Parsing the grid (whose leading
column has already been discarded by `prep`) fails at the boundary step
iff no row is entirely blank or the last entirely-blank row is row 0;
when the boundary step succeeds with index `e`, `e` is the last
entirely-blank row (blank, positive, and an upper bound on all blank row
indices) and the metadata block is exactly the rows before it; and a
boundary failure on the raw file is the error `parse_conetec` reports. -/
theorem blank_separator_boundary :
    (∀ g : Grid, exceptOk (metadataBoundary g) = false ↔
      ((∀ i, i < g.length → isBlankRow (g.getD i []) = false) ∨
       (isBlankRow (g.getD 0 []) = true ∧
        ∀ i, i < g.length → isBlankRow (g.getD i []) = true → i = 0))) ∧
    (∀ (g : Grid) (e : ℕ), metadataBoundary g = Except.ok e →
      isBlankRow (g.getD e []) = true ∧ 0 < e ∧ e < g.length ∧
      (∀ j, j < g.length → isBlankRow (g.getD j []) = true → j ≤ e) ∧
      metaRows g e = g.take e) ∧
    (∀ (raw : Grid) (m : String),
      metadataBoundary (prep raw) = Except.error m →
      parse_conetec raw = Except.error m) := by
  refine ⟨?_, ?_, ?_⟩
  · intro g
    unfold metadataBoundary
    cases hmb : natListMax? (blankRowIndices g) with
    | none =>
      simp only [exceptOk, true_iff]
      left
      intro i hi
      have hbe : blankRowIndices g = [] := natListMax?_eq_none.mp hmb
      by_contra hcon
      have : i ∈ blankRowIndices g :=
        mem_blankRowIndices.mpr ⟨hi, Bool.not_eq_false _ ▸ hcon⟩
      rw [hbe] at this
      exact List.not_mem_nil i this
    | some m =>
      dsimp only
      by_cases hm0 : m = 0
      · subst hm0
        rw [if_pos rfl]
        simp only [exceptOk, true_iff]
        right
        have h0 := mem_blankRowIndices.mp (natListMax?_mem hmb)
        refine ⟨h0.2, ?_⟩
        intro i hi hbi
        exact Nat.le_zero.mp
          (natListMax?_ub hmb i (mem_blankRowIndices.mpr ⟨hi, hbi⟩))
      · rw [if_neg hm0]
        simp only [exceptOk, Bool.true_eq_false, false_iff]
        intro hcon
        have hmem := mem_blankRowIndices.mp (natListMax?_mem hmb)
        rcases hcon with h | h
        · have h1 := h m hmem.1
          rw [hmem.2] at h1
          exact Bool.noConfusion h1
        · exact hm0 (h.2 m hmem.1 hmem.2)
  · intro g e he
    unfold metadataBoundary at he
    cases hmb : natListMax? (blankRowIndices g) with
    | none =>
      rw [hmb] at he
      simp at he
    | some m =>
      rw [hmb] at he
      dsimp only at he
      by_cases hm0 : m = 0
      · rw [if_pos hm0] at he
        simp at he
      · rw [if_neg hm0] at he
        simp only [Except.ok.injEq] at he
        subst he
        have hmem := mem_blankRowIndices.mp (natListMax?_mem hmb)
        refine ⟨hmem.2, Nat.pos_of_ne_zero hm0, hmem.1, ?_, rfl⟩
        intro j hj hbj
        exact natListMax?_ub hmb j (mem_blankRowIndices.mpr ⟨hj, hbj⟩)
  · intro raw m hm
    unfold parse_conetec parseConetecPayload
    dsimp only
    rw [hm]
    rfl

/-- A grid with no entirely-blank separator row. -/
def noSeparatorGrid : Grid :=
  [[Cell.blank, Cell.str "ConeTec Interpretation Output", Cell.str "x"],
   [Cell.blank, Cell.str "Run ID:", Cell.str "1726602193"]]

/-- Witness: a file missing the blank separator row fails with the
parser's boundary error. -/
theorem blank_separator_boundary_witness :
    parse_conetec noSeparatorGrid =
      Except.error "Empty row between metadata and CPT data not satisfied." :=
  blank_separator_boundary.2.2 noSeparatorGrid
    "Empty row between metadata and CPT data not satisfied." rfl

/-! ### Pore-pressure conversion (C9) -/

theorem except_ok_bind {ε α β : Type} (a : α) (f : α → Except ε β) :
    (Except.ok a : Except ε α) >>= f = f a := rfl

theorem except_bind_eq_ok {ε α β : Type} {x : Except ε α} {f : α → Except ε β}
    {b : β} (h : x >>= f = Except.ok b) :
    ∃ a, x = Except.ok a ∧ f a = Except.ok b := by
  cases x with
  | ok a => exact ⟨a, rfl, h⟩
  | error m =>
    exfalso
    rw [show (Except.error m : Except ε α) >>= f = Except.error m from rfl] at h
    exact Except.noConfusion h

theorem mapCleanRows_get {cs : List (List Cell)} {rs : List MeasRow}
    (h : mapCleanRows cs = Except.ok rs) :
    ∀ i r, rs.get? i = some r →
      ∃ c, cs.get? i = some c ∧ cleanRow c = Except.ok r := by
  induction cs generalizing rs with
  | nil =>
    simp only [mapCleanRows, Except.ok.injEq] at h
    subst h
    intro i r hir
    simp at hir
  | cons c rest ih =>
    simp only [mapCleanRows] at h
    obtain ⟨r0, hr0, h2⟩ := except_bind_eq_ok h
    obtain ⟨rs0, hrs0, h3⟩ := except_bind_eq_ok h2
    rw [show (Except.ok (r0 :: rs0) : Except String (List MeasRow)) =
      Except.ok rs ↔ r0 :: rs0 = rs from by simp] at h3
    subst h3
    intro i r hir
    cases i with
    | zero =>
      simp only [List.get?_cons_zero, Option.some.injEq] at hir
      subst hir
      exact ⟨c, rfl, hr0⟩
    | succ j =>
      simp only [List.get?_cons_succ] at hir
      obtain ⟨c', hc', hr'⟩ := ih hrs0 j r hir
      exact ⟨c', by simpa using hc', hr'⟩

/-- C9: every pore-pressure value in the finalized series is the raw
spreadsheet value multiplied by 62.4/2000 (ft of water → tsf), applied
exactly once — exact equality in ℚ, which subsumes the 1e-9 tolerance —
while a raw value at or below −9000 (or a blank cell) becomes missing
rather than a converted reading. -/
theorem pore_pressure_converted (raw : Grid) (p : ConetecPayload)
    (hp : parseConetecPayload raw = Except.ok p) (i : ℕ) (r : MeasRow)
    (hr : p.rows.get? i = some r) :
    ∃ e cells, metadataBoundary (prep raw) = Except.ok e ∧
      (dataCells (prep raw) e).get? i = some cells ∧
      (∀ q : ℚ, cells.getD 4 Cell.blank = Cell.num q →
        (q ≤ -9000 → r.u = none) ∧
        (¬ q ≤ -9000 → r.u = some (q * uConvFactor))) ∧
      (cells.getD 4 Cell.blank = Cell.blank → r.u = none) := by
  unfold parseConetecPayload at hp
  dsimp only at hp
  obtain ⟨e, he, hp⟩ := except_bind_eq_ok hp
  obtain ⟨meta, hmeta, hp⟩ := except_bind_eq_ok hp
  obtain ⟨unit0, hunit, hp⟩ := except_bind_eq_ok hp
  obtain ⟨rows, hrows, hp⟩ := except_bind_eq_ok hp
  obtain ⟨dateC, hdate, hp⟩ := except_bind_eq_ok hp
  obtain ⟨timeC, htime, hp⟩ := except_bind_eq_ok hp
  obtain ⟨arC, har, hp⟩ := except_bind_eq_ok hp
  obtain ⟨coneC, hcone, hp⟩ := except_bind_eq_ok hp
  obtain ⟨runC, hrun, hp⟩ := except_bind_eq_ok hp
  have hpr : p.rows = rows := by
    have := (Except.ok.injEq _ _).mp hp
    rw [← this]
  obtain ⟨c, hc, hclean⟩ := mapCleanRows_get hrows i r (by rw [← hpr]; exact hr)
  refine ⟨e, c, he, hc, ?_, ?_⟩
  · intro q hq
    unfold cleanRow at hclean
    rw [hq] at hclean
    obtain ⟨d0, hd0, hclean⟩ := except_bind_eq_ok hclean
    obtain ⟨q0, hq0, hclean⟩ := except_bind_eq_ok hclean
    obtain ⟨t0, ht0, hclean⟩ := except_bind_eq_ok hclean
    obtain ⟨f0, hf0, hclean⟩ := except_bind_eq_ok hclean
    obtain ⟨u0, hu0, hclean⟩ := except_bind_eq_ok hclean
    have hu0' : u0 = some q := by
      rw [show toFloat (Cell.num q) = Except.ok (some q) from rfl] at hu0
      exact ((Except.ok.injEq _ _).mp hu0).symm
    have hru : r.u = (maskSentinel u0).map (fun q => q * uConvFactor) := by
      have := (Except.ok.injEq _ _).mp hclean
      rw [← this]
    subst hu0'
    constructor
    · intro hle
      rw [hru]
      simp only [maskSentinel, if_pos hle]
      rfl
    · intro hle
      rw [hru]
      simp only [maskSentinel, if_neg hle]
      rfl
  · intro hq
    unfold cleanRow at hclean
    rw [hq] at hclean
    obtain ⟨d0, hd0, hclean⟩ := except_bind_eq_ok hclean
    obtain ⟨q0, hq0, hclean⟩ := except_bind_eq_ok hclean
    obtain ⟨t0, ht0, hclean⟩ := except_bind_eq_ok hclean
    obtain ⟨f0, hf0, hclean⟩ := except_bind_eq_ok hclean
    obtain ⟨u0, hu0, hclean⟩ := except_bind_eq_ok hclean
    have hu0' : u0 = none := by
      rw [show toFloat Cell.blank = Except.ok (none : Option ℚ) from rfl] at hu0
      exact ((Except.ok.injEq _ _).mp hu0).symm
    have hru : r.u = (maskSentinel u0).map (fun q => q * uConvFactor) := by
      have := (Except.ok.injEq _ _).mp hclean
      rw [← this]
    subst hu0'
    rw [hru]
    rfl

/-! ### A conforming vendor file (C2 scenario, and the C9 witness) -/

/-- A conforming vendor grid: the vendor-signature row, the metadata of
the C2 scenario, the blank separator row, the exact header and units
rows, and one data row whose depth [ft] is 0.08202. Column 0 is the
leading index column that the parser discards. -/
def conformingGrid : Grid :=
  [[Cell.blank, Cell.str "ConeTec Interpretation Output", Cell.blank, Cell.blank,
    Cell.blank, Cell.blank, Cell.blank, Cell.blank],
   [Cell.blank, Cell.str "Run ID:", Cell.str "1726602193", Cell.blank, Cell.blank,
    Cell.blank, Cell.blank, Cell.blank],
   [Cell.blank, Cell.str "Cone ID:", Cell.str "652:T1500F15U35", Cell.blank,
    Cell.blank, Cell.blank, Cell.blank, Cell.blank],
   [Cell.blank, Cell.str "Tip Net Area Ratio:", Cell.num 0.8, Cell.blank,
    Cell.blank, Cell.blank, Cell.blank, Cell.blank],
   [Cell.blank, Cell.str "CPT Date:", Cell.str "17-Sep-2024", Cell.blank,
    Cell.blank, Cell.blank, Cell.blank, Cell.blank],
   [Cell.blank, Cell.str "CPT Time:", Cell.str "10:30", Cell.blank, Cell.blank,
    Cell.blank, Cell.blank, Cell.blank],
   [Cell.blank, Cell.blank, Cell.blank, Cell.blank, Cell.blank, Cell.blank,
    Cell.blank, Cell.blank],
   [Cell.blank, Cell.str "Depth", Cell.str "Depth", Cell.str "qc", Cell.str "qt",
    Cell.str "fs", Cell.str "u", Cell.str "Rf"],
   [Cell.blank, Cell.str "m", Cell.str "ft", Cell.str "tsf", Cell.str "tsf",
    Cell.str "tsf", Cell.str "ft", Cell.str "%"],
   [Cell.blank, Cell.num 0.025, Cell.num 0.08202, Cell.num 24.718,
    Cell.num 24.71592117, Cell.num 0.24, Cell.num (-0.333), Cell.num 0.9]]

/-- The cells of the single data row after column selection. -/
def dataRow0Cells : List Cell :=
  [Cell.num 0.08202, Cell.num 24.718, Cell.num 24.71592117, Cell.num 0.24,
   Cell.num (-0.333)]

/-- The finalized measurement row of the conforming grid. -/
def row0 : MeasRow :=
  ⟨some 0.08202, some 24.718, some 24.71592117, some 0.24,
   some ((-0.333) * uConvFactor)⟩

/-- The payload the parser extracts from the conforming grid. -/
def payload0 : ConetecPayload :=
  { rows := [row0], timestamp := "17-Sep-2024 10:30",
    area_ratio := Cell.num 0.8, cone_id := "652:T1500F15U35",
    test_id := "1726602193", cone_type := "EC", subcontractor := "ConeTec" }

theorem maskSentinel_keeps {q : ℚ} (h : ¬ q ≤ -9000) :
    maskSentinel (some q) = some q := by
  simp only [maskSentinel, if_neg h]

theorem cleanRow_dataRow0 : cleanRow dataRow0Cells = Except.ok row0 := by
  have h1 : cleanRow dataRow0Cells =
      Except.ok ⟨maskSentinel (some 0.08202), maskSentinel (some 24.718),
        maskSentinel (some 24.71592117), maskSentinel (some 0.24),
        (maskSentinel (some (-0.333))).map (fun q => q * uConvFactor)⟩ := rfl
  rw [h1, maskSentinel_keeps (by norm_num), maskSentinel_keeps (by norm_num),
    maskSentinel_keeps (by norm_num), maskSentinel_keeps (by norm_num),
    maskSentinel_keeps (by norm_num)]
  rfl

theorem parseConetecPayload_conforming :
    parseConetecPayload conformingGrid = Except.ok payload0 := by
  have hbound : metadataBoundary (prep conformingGrid) = Except.ok 6 := rfl
  have hdata : dataCells (prep conformingGrid) 6 = [dataRow0Cells] := rfl
  have hmap : mapCleanRows (dataCells (prep conformingGrid) 6) =
      Except.ok [row0] := by
    rw [hdata]
    simp only [mapCleanRows]
    rw [cleanRow_dataRow0]
    rfl
  unfold parseConetecPayload
  dsimp only
  rw [hbound, except_ok_bind]
  rw [show extractMeta (prep conformingGrid) 6 =
    Except.ok [("Run ID:", Cell.str "1726602193"),
               ("Cone ID:", Cell.str "652:T1500F15U35"),
               ("Tip Net Area Ratio:", Cell.num 0.8),
               ("CPT Date:", Cell.str "17-Sep-2024"),
               ("CPT Time:", Cell.str "10:30")] from rfl, except_ok_bind]
  rw [show checkHeaderUnits (prep conformingGrid) 6 = Except.ok () from rfl,
    except_ok_bind]
  rw [hmap, except_ok_bind]
  rfl

/-- C2 (code bug, evaluated at the failing input): the conforming scenario
file passes every validation and cleaning step — the extracted payload
carries `cone_type = "EC"`, `area_ratio = 0.80`, `test_id = "1726602193"`
and a first depth of 0.08202 — but `parse_conetec` then fails with a
`TypeError`: it passes the keyword `name`, which `CPTGeneral.__init__`
(whose identifying parameter is `cpt_id`) does not accept, so parsing
never succeeds and no metadata record is returned (the repo's own test
`test_utils_parse_conetec` asserts the success the claim describes). -/
theorem conforming_parse_raises_type_error :
    parse_conetec conformingGrid =
      Except.error "TypeError: CPTGeneral got an unexpected keyword argument" ∧
    parseConetecPayload conformingGrid = Except.ok payload0 ∧
    payload0.cone_type = "EC" ∧
    payload0.area_ratio = Cell.num (0.8 : ℚ) ∧
    payload0.test_id = "1726602193" ∧
    (payload0.rows.map MeasRow.depth).head? = some (some (0.08202 : ℚ)) ∧
    "name" ∈ conetecGeneralKwargs ∧ "name" ∉ cptGeneralParams ∧
    kwargsBindOk cptGeneralParams cptGeneralRequired conetecGeneralKwargs =
      false := by
  refine ⟨?_, parseConetecPayload_conforming, rfl, rfl, rfl, rfl,
    by decide, by decide, by decide⟩
  unfold parse_conetec
  rw [parseConetecPayload_conforming, except_ok_bind]
  rfl

/-- Witness for the pore-pressure conversion at the conforming grid: its
single row's raw pore-pressure cell is −0.333 ft of water and the stored
value is −0.333 · 62.4/2000 tsf. -/
theorem pore_pressure_converted_witness :
    ∃ e cells, metadataBoundary (prep conformingGrid) = Except.ok e ∧
      (dataCells (prep conformingGrid) e).get? 0 = some cells ∧
      (∀ q : ℚ, cells.getD 4 Cell.blank = Cell.num q →
        (q ≤ -9000 → row0.u = none) ∧
        (¬ q ≤ -9000 → row0.u = some (q * uConvFactor))) ∧
      (cells.getD 4 Cell.blank = Cell.blank → row0.u = none) :=
  pore_pressure_converted conformingGrid payload0 parseConetecPayload_conforming
    0 row0 rfl

end NBB
